import Mathlib

/-!
Shallow embedding of `newspaper/mthreading.py` (classes `Worker`, `ThreadPool`
and `NewsPool`) together with an operational model of the worker-pool
execution, used to settle the claims about the module.

Conventions of the embedding:
* Python exceptions are modelled with `Except PyError`; a call that can raise
  returns a `PyCall` record holding the post-call state of the receiver, the
  result, and the lines printed to the console.
* `None`-able attributes (`NewsPool.pool`) and the `is None` checks in `join`
  are modelled with `Option`.
* The standard-library `queue.Queue(maxsize)` used by `ThreadPool` is modelled
  by `PyQueue`: a FIFO list of items plus the `maxsize` bound and the
  `unfinished_tasks` counter maintained by `put` / `task_done` / `join`.
  Per the Python library documentation, a `maxsize` of zero means the queue
  is unbounded, and `put` blocks while `0 < maxsize <= qsize()`.
-/

namespace Mthreading

/-- Python exception kinds raised by the code paths modelled here. -/
inductive PyError where
  | typeError (msg : String) : PyError
  | attributeError (msg : String) : PyError
  | runtimeError (msg : String) : PyError
deriving DecidableEq

/-- Result of a Python method call on a mutable object: the state of the
object after the call (mutations before a raise are kept), the normal or
exceptional result, and the lines printed to the console during the call. -/
structure PyCall (σ : Type) where
  state : σ
  result : Except PyError Unit
  printed : List String

/-- Modelled from the spec: `Configuration` (defined in
`newspaper/configuration.py`, which is not part of the sources at hand)
provides the two read-only integers this module consumes:
`thread_timeout_seconds` and `max_number_threads`. -/
structure Configuration where
  thread_timeout_seconds : Nat
  max_number_threads : Nat
deriving DecidableEq

/-- The jobs `NewsPool` submits to its pool: `paper.download_articles` for a
source, `article.download` and `article.parse` for an article. -/
inductive Job (π α : Type) where
  | downloadArticles (paper : π) : Job π α
  | download (article : α) : Job π α
  | parse (article : α) : Job π α
deriving DecidableEq

/-- Model of `queue.Queue(maxsize)` as used by `ThreadPool`: FIFO `items`,
the `maxsize` bound, and the `unfinished_tasks` counter. -/
structure PyQueue (τ : Type) where
  maxsize : Nat
  items : List τ
  unfinished_tasks : Nat
deriving DecidableEq

/-- A freshly constructed `queue.Queue(maxsize)`. -/
def PyQueue.empty (τ : Type) (maxsize : Nat) : PyQueue τ :=
  ⟨maxsize, [], 0⟩

/-- Condition under which `Queue.put` blocks: while `0 < maxsize` and `maxsize <= qsize()`;
in particular with `maxsize = 0` the queue is unbounded and `put` never
blocks. -/
def putBlocks (maxsize count : Nat) : Prop :=
  0 < maxsize ∧ maxsize ≤ count

instance (maxsize count : Nat) : Decidable (putBlocks maxsize count) :=
  inferInstanceAs (Decidable (0 < maxsize ∧ maxsize ≤ count))

/-- The effect of `Queue.put(item)` once it is not blocked: append the item
and increment `unfinished_tasks`. -/
def PyQueue.put (q : PyQueue τ) (x : τ) : PyQueue τ :=
  { q with items := q.items ++ [x], unfinished_tasks := q.unfinished_tasks + 1 }

/-- Model of `ThreadPool.__init__(num_threads, timeout_seconds)`: the task queue is
`queue.Queue(num_threads)` and exactly `num_threads` `Worker`s are spawned
on it; `num_threads` records how many were spawned. -/
structure ThreadPool (τ : Type) where
  num_threads : Nat
  timeout_seconds : Nat
  tasks : PyQueue τ
deriving DecidableEq

/-- Constructor call `ThreadPool.__init__`. -/
def ThreadPool.init (τ : Type) (num_threads timeout_seconds : Nat) : ThreadPool τ :=
  ⟨num_threads, timeout_seconds, PyQueue.empty τ num_threads⟩

/-- Method `ThreadPool.add_task`: `self.tasks.put((func, args, kargs))`. -/
def ThreadPool.add_task (p : ThreadPool τ) (f : τ) : ThreadPool τ :=
  { p with tasks := p.tasks.put f }

/-- In Python 3, `list <= int` raises
`TypeError: unsupported operand ...`; `set_articles` evaluates
`self.articles <= self.config.max_number_threads` (inside `len(...)`), so
every call reaches this comparison. -/
def pyListLeInt (_xs : List α) (_n : Nat) : Except PyError Bool :=
  Except.error (PyError.typeError "unsupported comparison between list and int")

/-- The `NewsPool` object: `papers`, `articles`, `pool`, `config`.
`papers` and `articles` are `Option`s so that the `is None` test in `join`
can be expressed; the constructor initializes both to `some []`. -/
structure NewsPool (π α : Type) where
  papers : Option (List π)
  articles : Option (List α)
  pool : Option (ThreadPool (Job π α))
  config : Configuration

/-- Constructor `NewsPool.__init__(config)`: empty lists, no pool. -/
def NewsPool.init (cfg : Configuration) : NewsPool π α :=
  ⟨some [], some [], none, cfg⟩

/-- The message `join` prints when its misuse guard fires. -/
def joinMisuseMsg : String :=
  "Call set_papers(..) or set_articles(...) with a list of source objects before .join(..)"

/-- Method `NewsPool.join`: if `self.pool is None and self.articles is None`, print
the misuse message and execute a bare `raise` (which, with no active
exception, raises `RuntimeError`); otherwise call
`self.pool.wait_completion()` (an `AttributeError` when `pool` is `None`)
and then reset `papers`, `articles` and `pool`.  The blocking behaviour of
`wait_completion` is treated in the operational model below; here the call
is modelled as having returned. -/
def NewsPool.join (np : NewsPool π α) : PyCall (NewsPool π α) :=
  if np.pool.isNone && np.articles.isNone then
    ⟨np, Except.error (PyError.runtimeError "No active exception to re-raise"),
      [joinMisuseMsg]⟩
  else
    match np.pool with
    | none =>
        ⟨np, Except.error
          (PyError.attributeError "NoneType object has no attribute wait_completion"), []⟩
    | some _ =>
        ⟨{ np with papers := some [], articles := some [], pool := none },
          Except.ok (), []⟩

/-- Method `NewsPool.set_papers(paper_list, threads_per_source)`: store the list,
build a `ThreadPool` of `threads_per_source * len(papers)` threads with the
configured timeout, and `add_task(paper.download_articles)` for each paper
in order. -/
def NewsPool.set_papers (np : NewsPool π α) (paper_list : List π)
    (threads_per_source : Nat) : NewsPool π α :=
  let np1 : NewsPool π α := { np with papers := some paper_list }
  let num_threads := threads_per_source * paper_list.length
  let timeout := np1.config.thread_timeout_seconds
  let pool0 := ThreadPool.init (Job π α) num_threads timeout
  let pool1 := paper_list.foldl
    (fun p paper => p.add_task (Job.downloadArticles paper)) pool0
  { np1 with pool := some pool1 }

/-- Method `NewsPool.set_articles(article_list)`: store the list, then compute
`num_threads = len(self.articles) if len(self.articles <= self.config.max_number_threads) else self.config.max_number_threads`.
The condition compares the article *list* itself to the integer ceiling, so
Python raises `TypeError` before any pool is created or any task submitted;
the `Except.ok` branch below transcribes the two branches of the
conditional expression and the task submissions that would follow, but it
is unreachable. -/
def NewsPool.set_articles (np : NewsPool π α) (article_list : List α) :
    PyCall (NewsPool π α) :=
  let np1 : NewsPool π α := { np with articles := some article_list }
  let timeout := np1.config.thread_timeout_seconds
  match pyListLeInt article_list np1.config.max_number_threads with
  | Except.error e => ⟨np1, Except.error e, []⟩
  | Except.ok le =>
      let num_threads :=
        if le then article_list.length else np1.config.max_number_threads
      let pool0 := ThreadPool.init (Job π α) num_threads timeout
      let pool1 := article_list.foldl
        (fun p a => (p.add_task (Job.download a)).add_task (Job.parse a)) pool0
      ⟨{ np1 with pool := some pool1 }, Except.ok (), []⟩

/-!
Operational model of one batch: the producer thread submits the jobs of the
batch one at a time through `Queue.put` (blocking while the bounded queue is
full), each `Worker` loops `Queue.get(timeout)` / invoke / `task_done`, and
the producer finally blocks in `wait_completion` (`Queue.join`), which
returns once `unfinished_tasks` is zero.  `submitted`, `dequeued` and
`executed` are history variables recording, in order, the jobs enqueued,
the jobs removed from the queue, and the jobs whose invocation (successful
or with a swallowed exception) has finished.
-/

/-- The state of one `Worker` thread: blocked in `Queue.get` (`idle`),
executing a job (`busy`), or exited after `queue.Empty` (`stopped`). -/
inductive WStatus (τ : Type) where
  | idle : WStatus τ
  | busy (job : τ) : WStatus τ
  | stopped : WStatus τ
deriving DecidableEq

/-- The jobs currently being executed by the workers of a pool. -/
def heldJobs : List (WStatus τ) → List τ
  | [] => []
  | WStatus.busy j :: ws => j :: heldJobs ws
  | WStatus.idle :: ws => heldJobs ws
  | WStatus.stopped :: ws => heldJobs ws

/-- Global state of a running batch. -/
structure PoolState (τ : Type) where
  pending : List τ
  submitted : List τ
  queue : List τ
  dequeued : List τ
  executed : List τ
  workers : List (WStatus τ)
  unfinished : Nat
  waiter_returned : Bool
deriving DecidableEq

/-- Start of a batch: `num_threads` workers spawned and idle, all jobs still
to be submitted, queue empty, `unfinished_tasks` zero. -/
def initPoolState (num_threads : Nat) (jobs : List τ) : PoolState τ :=
  ⟨jobs, [], [], [], [], List.replicate num_threads WStatus.idle, 0, false⟩

/-- One interleaving step of a batch over a queue of capacity `cap`:
the producer completes a non-blocked `put` (`submit`); an idle worker's
`Queue.get` returns the head of the queue (`get`); an idle worker's
`Queue.get` raises `queue.Empty` and the worker breaks out of its loop
(`timeout`); a busy worker finishes invoking its job — exceptions caught
and traced — and calls `task_done` (`finish`); the producer's
`wait_completion` returns because `unfinished_tasks` is zero
(`wait_return`). -/
inductive Step (cap : Nat) : PoolState τ → PoolState τ → Prop where
  | submit (s : PoolState τ) (j : τ) (rest : List τ)
      (hp : s.pending = j :: rest)
      (hfull : ¬ putBlocks cap s.queue.length) :
      Step cap s { s with
                   pending := rest
                   submitted := s.submitted ++ [j]
                   queue := s.queue ++ [j]
                   unfinished := s.unfinished + 1 }
  | get (s : PoolState τ) (j : τ) (qrest : List τ)
      (pre post : List (WStatus τ))
      (hw : s.workers = pre ++ WStatus.idle :: post)
      (hq : s.queue = j :: qrest) :
      Step cap s { s with
                   queue := qrest
                   dequeued := s.dequeued ++ [j]
                   workers := pre ++ WStatus.busy j :: post }
  | timeout (s : PoolState τ) (pre post : List (WStatus τ))
      (hw : s.workers = pre ++ WStatus.idle :: post) :
      Step cap s { s with workers := pre ++ WStatus.stopped :: post }
  | finish (s : PoolState τ) (j : τ) (pre post : List (WStatus τ))
      (hw : s.workers = pre ++ WStatus.busy j :: post) :
      Step cap s { s with
                   executed := s.executed ++ [j]
                   workers := pre ++ WStatus.idle :: post
                   unfinished := s.unfinished - 1 }
  | wait_return (s : PoolState τ)
      (hpend : s.pending = [])
      (hz : s.unfinished = 0)
      (hnr : s.waiter_returned = false) :
      Step cap s { s with waiter_returned := true }

/-- Finitely many interleaving steps. -/
def Steps (cap : Nat) : PoolState τ → PoolState τ → Prop :=
  Relation.ReflTransGen (Step cap)

/-- The inductive invariant of a batch that started with job list `jobs`. -/
structure Inv (cap : Nat) (jobs : List τ) (s : PoolState τ) : Prop where
  submitted_pending : jobs = s.submitted ++ s.pending
  fifo : s.submitted = s.dequeued ++ s.queue
  dequeued_perm : s.dequeued.Perm (s.executed ++ heldJobs s.workers)
  count : s.unfinished = s.queue.length + (heldJobs s.workers).length
  returned : s.waiter_returned = true → s.pending = [] ∧ s.unfinished = 0
  cap_bound : 0 < cap → s.queue.length ≤ cap

/-- One observable event of `Worker.run`: a traceback printed by the
`except Exception` handler (`traceback.print_exc()`), or a call to
`self.tasks.task_done()`. -/
inductive RunEvent where
  | traceback : RunEvent
  | task_done : RunEvent
deriving DecidableEq

/-- Did an invocation raise? -/
def raised : Except PyError Unit → Bool
  | Except.error _ => true
  | Except.ok _ => false

/-- The body of one iteration of the `while True` loop of `Worker.run` after
a successful `get`: `func(*args, **kargs)` is attempted with outcome
`outcome`; if it raises, the exception is caught and
`traceback.print_exc()` runs; in both cases `self.tasks.task_done()` is
then called. -/
def workerRunBody (outcome : Except PyError Unit) : List RunEvent :=
  (match outcome with
   | Except.error _ => [RunEvent.traceback]
   | Except.ok _ => []) ++ [RunEvent.task_done]

/-- Model of `Worker.run` viewed over the sequence of invocation outcomes of the
jobs this worker dequeues before its final `get` raises `queue.Empty` and
breaks the loop.  The return type has no exception component: `run` itself
never raises. -/
def workerRun : List (Except PyError Unit) → List RunEvent
  | [] => []
  | o :: rest => workerRunBody o ++ workerRun rest

theorem heldJobs_append (l₁ l₂ : List (WStatus τ)) :
    heldJobs (l₁ ++ l₂) = heldJobs l₁ ++ heldJobs l₂ := by
  induction l₁ with
  | nil => rfl
  | cons w ws ih => cases w <;> simp [heldJobs, ih]

theorem heldJobs_replicate_idle (n : Nat) :
    heldJobs (List.replicate n (WStatus.idle : WStatus τ)) = [] := by
  induction n with
  | zero => rfl
  | succ n ih => simp [List.replicate, heldJobs, ih]

theorem Inv.init (cap num_threads : Nat) (jobs : List τ) :
    Inv cap jobs (initPoolState num_threads jobs) := by
  refine ⟨by simp [initPoolState], rfl, ?_, ?_, by simp [initPoolState], by simp [initPoolState]⟩
  · simp [initPoolState, heldJobs_replicate_idle]
  · simp [initPoolState, heldJobs_replicate_idle]

theorem perm_insert_middle (d e a b : List τ) (j : τ)
    (h : d.Perm (e ++ (a ++ b))) :
    (d ++ [j]).Perm (e ++ (a ++ j :: b)) := by
  have h1 : (d ++ [j]).Perm (j :: d) := List.perm_append_singleton j d
  have h2 : (j :: d).Perm (j :: (e ++ (a ++ b))) := h.cons j
  have h3 : (j :: (e ++ (a ++ b))).Perm (e ++ (a ++ j :: b)) := by
    simp only [← List.append_assoc]
    exact List.perm_middle.symm
  exact (h1.trans h2).trans h3

theorem perm_extract_middle (d e a b : List τ) (j : τ)
    (h : d.Perm (e ++ (a ++ j :: b))) :
    d.Perm ((e ++ [j]) ++ (a ++ b)) := by
  have h3 : (e ++ (a ++ j :: b)).Perm (j :: (e ++ (a ++ b))) := by
    simp only [← List.append_assoc]
    exact List.perm_middle
  have h4 : (j :: (e ++ (a ++ b))).Perm ((e ++ [j]) ++ (a ++ b)) := by
    have he : (e ++ [j]) ++ (a ++ b) = e ++ j :: (a ++ b) := by simp
    rw [he]
    exact List.perm_middle.symm
  exact (h.trans h3).trans h4

theorem Inv.step {cap : Nat} {jobs : List τ} {s s' : PoolState τ}
    (hstep : Step cap s s') (hinv : Inv cap jobs s) : Inv cap jobs s' := by
  obtain ⟨h1, h2, h3, h4, h5, h6⟩ := hinv
  cases hstep with
  | submit j rest hp hfull =>
      refine ⟨?_, ?_, h3, ?_, ?_, ?_⟩
      · dsimp only
        rw [h1, hp]
        simp
      · dsimp only
        rw [h2, List.append_assoc]
      · dsimp only
        rw [h4]
        simp only [List.length_append, List.length_cons, List.length_nil]
        omega
      · dsimp only
        intro h
        have hpe := (h5 h).1
        rw [hp] at hpe
        exact absurd hpe (by simp)
      · dsimp only
        intro hc
        have hlt : s.queue.length < cap := by
          rcases Nat.lt_or_ge s.queue.length cap with h | h
          · exact h
          · exact absurd ⟨hc, h⟩ hfull
        simp only [List.length_append, List.length_cons, List.length_nil]
        omega
  | get j qrest pre post hw hq =>
      have hheld : heldJobs (pre ++ WStatus.busy j :: post) =
          heldJobs pre ++ j :: heldJobs post := by
        rw [heldJobs_append]; rfl
      have hheld0 : heldJobs s.workers = heldJobs pre ++ heldJobs post := by
        rw [hw, heldJobs_append]; rfl
      rw [hheld0] at h3
      refine ⟨h1, ?_, ?_, ?_, ?_, ?_⟩
      · dsimp only
        rw [h2, hq]
        simp
      · dsimp only
        rw [hheld]
        exact perm_insert_middle _ _ _ _ j h3
      · dsimp only
        rw [h4, hq, hheld0, hheld]
        simp only [List.length_append, List.length_cons]
        omega
      · dsimp only
        exact h5
      · dsimp only
        intro hc
        have := h6 hc
        rw [hq] at this
        simp only [List.length_cons] at this
        omega
  | timeout pre post hw =>
      have hheld : heldJobs (pre ++ WStatus.stopped :: post) =
          heldJobs pre ++ heldJobs post := by
        rw [heldJobs_append]; rfl
      have hheld0 : heldJobs s.workers = heldJobs pre ++ heldJobs post := by
        rw [hw, heldJobs_append]; rfl
      refine ⟨h1, h2, ?_, ?_, h5, h6⟩
      · dsimp only
        rw [hheld, ← hheld0]
        exact h3
      · dsimp only
        rw [hheld, ← hheld0]
        exact h4
  | finish j pre post hw =>
      have hheld : heldJobs (pre ++ WStatus.idle :: post) =
          heldJobs pre ++ heldJobs post := by
        rw [heldJobs_append]; rfl
      have hheld0 : heldJobs s.workers = heldJobs pre ++ j :: heldJobs post := by
        rw [hw, heldJobs_append]; rfl
      rw [hheld0] at h3 h4
      refine ⟨h1, h2, ?_, ?_, ?_, h6⟩
      · dsimp only
        rw [hheld]
        exact perm_extract_middle _ _ _ _ j h3
      · dsimp only
        rw [hheld]
        simp only [List.length_append, List.length_cons] at h4 ⊢
        omega
      · dsimp only
        intro h
        rcases h5 h with ⟨hpe, hz⟩
        exact ⟨hpe, by omega⟩
  | wait_return hpend hz hnr =>
      exact ⟨h1, h2, h3, h4, fun _ => ⟨hpend, hz⟩, h6⟩

theorem Inv.steps {cap : Nat} {jobs : List τ} {s s' : PoolState τ}
    (hsteps : Steps cap s s') (hinv : Inv cap jobs s) : Inv cap jobs s' := by
  induction hsteps with
  | refl => exact hinv
  | tail _ hstep ih => exact ih.step hstep

theorem Inv.reachable (cap num_threads : Nat) (jobs : List τ) (s : PoolState τ)
    (h : Steps cap (initPoolState num_threads jobs) s) : Inv cap jobs s :=
  Inv.steps h (Inv.init cap num_threads jobs)

theorem getElem?_replace_of_ne (pre post : List γ) (x y v : γ) (i : Nat)
    (h : (pre ++ x :: post)[i]? = some v) (hvx : v ≠ x) :
    (pre ++ y :: post)[i]? = some v := by
  induction pre generalizing i with
  | nil =>
      cases i with
      | zero =>
          simp only [List.nil_append, List.getElem?_cons_zero, Option.some.injEq] at h
          exact absurd h.symm hvx
      | succ n =>
          simpa using h
  | cons a pre ih =>
      cases i with
      | zero => simpa using h
      | succ n =>
          simp only [List.cons_append, List.getElem?_cons_succ] at h ⊢
          exact ih n h

theorem Step.stopped_stays {cap : Nat} {s s' : PoolState τ} (hstep : Step cap s s')
    (i : Nat) (hi : s.workers[i]? = some WStatus.stopped) :
    s'.workers[i]? = some WStatus.stopped := by
  cases hstep with
  | submit j rest hp hfull => exact hi
  | get j qrest pre post hw hq =>
      dsimp only
      rw [hw] at hi
      exact getElem?_replace_of_ne pre post _ _ _ i hi (by simp)
  | timeout pre post hw =>
      dsimp only
      rw [hw] at hi
      exact getElem?_replace_of_ne pre post _ _ _ i hi (by simp)
  | finish j pre post hw =>
      dsimp only
      rw [hw] at hi
      exact getElem?_replace_of_ne pre post _ _ _ i hi (by simp)
  | wait_return hpend hz hnr => exact hi

theorem foldl_add_task (pool : ThreadPool τ) (l : List σ) (f : σ → τ) :
    l.foldl (fun p x => p.add_task (f x)) pool =
      ⟨pool.num_threads, pool.timeout_seconds,
        ⟨pool.tasks.maxsize, pool.tasks.items ++ l.map f,
          pool.tasks.unfinished_tasks + l.length⟩⟩ := by
  induction l generalizing pool with
  | nil => simp
  | cons a l ih =>
      simp only [List.foldl_cons, List.map_cons, List.length_cons]
      rw [ih]
      simp only [ThreadPool.add_task, PyQueue.put]
      simp [List.append_assoc]
      omega

/-!
Claim theorems.
-/

/-- C1 (code evaluated at its failing input): `set_articles` never builds a
pool nor submits jobs — evaluating
`len(self.articles <= self.config.max_number_threads)` compares the
article list to an integer and raises `TypeError` on every call, after
`self.articles` has been assigned but before the `ThreadPool` is created,
so the claimed pool of `min(M, ceiling)` workers with `2M` submitted jobs
never comes into existence. -/
theorem set_articles_type_error (np : NewsPool π α) (article_list : List α) :
    (np.set_articles article_list).result =
      Except.error (PyError.typeError "unsupported comparison between list and int") ∧
    (np.set_articles article_list).state.pool = np.pool ∧
    (np.set_articles article_list).state.articles = some article_list :=
  ⟨rfl, rfl, rfl⟩

/-- C2 (code evaluated at its failing input): calling `join()` on a freshly
constructed `NewsPool` does raise unconditionally and without blocking —
but the error is an `AttributeError` from `self.pool.wait_completion()`
with `pool = None`, and nothing is printed: the misuse guard
`self.pool is None and self.articles is None` is never taken because
`articles` is initialized to `[]`, which is not `None`. -/
theorem join_no_batch_attribute_error (cfg : Configuration) :
    ((NewsPool.init cfg : NewsPool π α).join).result =
      Except.error
        (PyError.attributeError "NoneType object has no attribute wait_completion") ∧
    ((NewsPool.init cfg : NewsPool π α).join).printed = [] :=
  ⟨rfl, rfl⟩

/-- C3: for every source list and every `threads_per_source` value `k`,
`set_papers` installs a pool whose constructor was given exactly
`k * N` threads (spawning that many workers, with a channel of that
capacity) and submits exactly `N` jobs, one per source in list order, each
invoking that source's `download_articles`. -/
theorem set_papers_workers_and_jobs (np : NewsPool π α) (paper_list : List π)
    (k : Nat) :
    (np.set_papers paper_list k).pool =
      some ⟨k * paper_list.length, np.config.thread_timeout_seconds,
        ⟨k * paper_list.length, paper_list.map Job.downloadArticles,
          paper_list.length⟩⟩ := by
  show some (List.foldl _ _ paper_list) = _
  rw [foldl_add_task]
  simp [ThreadPool.init, PyQueue.empty]

/-- C4: over any sequence of invocation outcomes a worker processes, every
job — including every job whose invocation raised — is followed by a
`task_done` call, each raising job emits exactly one traceback on the
error stream, and `workerRun` returns a plain event list with no
exception component, so no job error ever propagates out of the worker
loop towards `wait_completion` or `join`. -/
theorem worker_swallows_errors (outcomes : List (Except PyError Unit)) :
    (workerRun outcomes).count RunEvent.task_done = outcomes.length ∧
    (workerRun outcomes).count RunEvent.traceback =
      (outcomes.filter raised).length := by
  induction outcomes with
  | nil => simp [workerRun]
  | cons o rest ih =>
      cases o with
      | ok u =>
          simp [workerRun, workerRunBody, List.count_append, List.count_cons,
            raised, ih.1, ih.2]
      | error e =>
          simp [workerRun, workerRunBody, List.count_append, List.count_cons,
            raised, ih.1, ih.2]

/-- C5: the `Stopped` state of a worker is terminal — once a worker has
broken out of its loop after a `queue.Empty` timeout, no further step of
the batch ever changes that worker's cell again (in particular it never
performs another dequeue, which would require the cell to be `idle`). -/
theorem stopped_is_terminal (cap : Nat) (s s' : PoolState τ) (i : Nat)
    (h : Steps cap s s') (hi : s.workers[i]? = some WStatus.stopped) :
    s'.workers[i]? = some WStatus.stopped := by
  induction h with
  | refl => exact hi
  | tail _ hstep ih => exact hstep.stopped_stays i ih

/-- Witness for C5: a worker that timed out stays stopped across a further
step. -/
theorem stopped_is_terminal_witness :
    ((⟨[], [], [], [], [], [WStatus.stopped], 0, true⟩ : PoolState Nat).workers)[0]? =
      some WStatus.stopped :=
  stopped_is_terminal 1 (⟨[], [], [], [], [], [WStatus.stopped], 0, false⟩ : PoolState Nat)
    _ 0 (Relation.ReflTransGen.single (Step.wait_return _ rfl rfl rfl)) rfl

/-- C6 counterexample: for a pool constructed with `thread_count = 0` (as
`set_papers` produces when `threads_per_source = 0`), the channel is not of
capacity `thread_count`: one enqueue step is enabled from the initial state
(the `put` does not block) and yields a reachable state whose queue holds
`1 > 0` pending items. -/
theorem channel_capacity_counterexample :
    Step 0 (initPoolState 0 [(0 : Nat)])
      (⟨[], [0], [0], [], [], [], 1, false⟩ : PoolState Nat) ∧
    0 < (⟨[], [0], [0], [], [], [], 1, false⟩ : PoolState Nat).queue.length ∧
    ¬ putBlocks 0 1 :=
  ⟨Step.submit _ 0 [] rfl (by decide), by decide, by decide⟩

/-- C6 amended: for every pool constructed with `thread_count ≥ 1` workers,
the task channel has capacity `thread_count`, in every reachable state the
pending items never exceed that capacity, an enqueue into a channel
holding `capacity` items blocks, and delivery is strict FIFO — the
dequeued jobs followed by the still-queued jobs are exactly the submitted
jobs in submission order. -/
theorem channel_bounded_and_fifo (cap num_threads t : Nat) (jobs : List τ)
    (s : PoolState τ) (hcap : 0 < cap)
    (h : Steps cap (initPoolState num_threads jobs) s) :
    (ThreadPool.init τ cap t).tasks.maxsize = cap ∧
    s.queue.length ≤ cap ∧
    (cap ≤ s.queue.length → putBlocks cap s.queue.length) ∧
    s.submitted = s.dequeued ++ s.queue := by
  obtain ⟨h1, h2, h3, h4, h5, h6⟩ := Inv.reachable cap num_threads jobs s h
  exact ⟨rfl, h6 hcap, fun hf => ⟨hcap, hf⟩, h2⟩

/-- Witness for the amended C6, at capacity `1` and the initial state. -/
theorem channel_bounded_and_fifo_witness :
    (ThreadPool.init Nat 1 7).tasks.maxsize = 1 ∧
    (initPoolState 1 ([] : List Nat)).queue.length ≤ 1 ∧
    (1 ≤ (initPoolState 1 ([] : List Nat)).queue.length →
      putBlocks 1 (initPoolState 1 ([] : List Nat)).queue.length) ∧
    (initPoolState 1 ([] : List Nat)).submitted =
      (initPoolState 1 ([] : List Nat)).dequeued ++ (initPoolState 1 ([] : List Nat)).queue :=
  channel_bounded_and_fifo 1 1 7 [] _ (by decide) Relation.ReflTransGen.refl

/-- C7: whenever `wait_completion` has returned, every job of the submitted
batch has been executed exactly once — the multiset of executed jobs is a
permutation of the batch — and no job remains in the queue or in the hands
of a worker. -/
theorem wait_completion_barrier (cap num_threads : Nat) (jobs : List τ)
    (s : PoolState τ)
    (h : Steps cap (initPoolState num_threads jobs) s)
    (hr : s.waiter_returned = true) :
    s.executed.Perm jobs ∧ s.queue = [] ∧ heldJobs s.workers = [] := by
  obtain ⟨h1, h2, h3, h4, h5, h6⟩ := Inv.reachable cap num_threads jobs s h
  obtain ⟨hpend, hz⟩ := h5 hr
  rw [h4] at hz
  have hq : s.queue = [] := List.length_eq_zero.mp (by omega)
  have hh : heldJobs s.workers = [] := List.length_eq_zero.mp (by omega)
  refine ⟨?_, hq, hh⟩
  rw [hq, List.append_nil] at h2
  rw [hh, List.append_nil] at h3
  rw [hpend, List.append_nil] at h1
  rw [h1, h2]
  exact h3.symm

/-- Witness for C7: a complete run of a one-job batch on one worker. -/
theorem wait_completion_barrier_witness :
    (⟨[], [0], [], [0], [0], [WStatus.idle], 0, true⟩ : PoolState Nat).executed.Perm [0] ∧
    (⟨[], [0], [], [0], [0], [WStatus.idle], 0, true⟩ : PoolState Nat).queue = [] ∧
    heldJobs (⟨[], [0], [], [0], [0], [WStatus.idle], 0, true⟩ : PoolState Nat).workers = [] := by
  refine wait_completion_barrier 1 1 [0] _ ?_ rfl
  refine Relation.ReflTransGen.head (Step.submit _ 0 [] rfl (by decide)) ?_
  refine Relation.ReflTransGen.head (Step.get _ 0 [] [] [] rfl rfl) ?_
  refine Relation.ReflTransGen.head (Step.finish _ 0 [] [] rfl) ?_
  exact Relation.ReflTransGen.single (Step.wait_return _ rfl rfl rfl)

/-- C8: with an active batch (a pool is set), `join` returns normally after
`wait_completion` and clears all batch state: `papers` and `articles` are
empty lists and the pool reference is dropped. -/
theorem join_clears_batch_state (np : NewsPool π α) (p : ThreadPool (Job π α))
    (h : np.pool = some p) :
    (np.join).result = Except.ok () ∧
    (np.join).state.papers = some [] ∧
    (np.join).state.articles = some [] ∧
    (np.join).state.pool = none := by
  simp [NewsPool.join, h]

/-- Witness for C8: a three-source batch set by `set_papers`, then joined. -/
theorem join_clears_batch_state_witness :
    ((((NewsPool.init ⟨5, 4⟩ : NewsPool Nat Nat).set_papers [0, 1, 2] 1).join).result =
      Except.ok () ∧
    (((NewsPool.init ⟨5, 4⟩ : NewsPool Nat Nat).set_papers [0, 1, 2] 1).join).state.papers =
      some [] ∧
    (((NewsPool.init ⟨5, 4⟩ : NewsPool Nat Nat).set_papers [0, 1, 2] 1).join).state.articles =
      some [] ∧
    (((NewsPool.init ⟨5, 4⟩ : NewsPool Nat Nat).set_papers [0, 1, 2] 1).join).state.pool =
      none) :=
  join_clears_batch_state _
    ⟨3, 5, ⟨3, [Job.downloadArticles 0, Job.downloadArticles 1, Job.downloadArticles 2], 3⟩⟩
    rfl

/-- C9: whenever `join` terminates with an error, the fields `papers`,
`articles` and `pool` are exactly as before the call; the reset to empty
lists and a cleared pool reference happens only on the success path, after
`wait_completion` has returned. -/
theorem join_error_leaves_state (np : NewsPool π α) (e : PyError)
    (h : (np.join).result = Except.error e) :
    (np.join).state = np := by
  cases hp : np.pool with
  | none =>
      cases ha : np.articles with
      | none => simp [NewsPool.join, hp, ha]
      | some l => simp [NewsPool.join, hp, ha]
  | some p => simp [NewsPool.join, hp] at h

/-- Witness for C9: `join` on a fresh `NewsPool` errors and leaves the
state unchanged. -/
theorem join_error_leaves_state_witness :
    ((NewsPool.init ⟨5, 4⟩ : NewsPool Nat Nat).join).state = NewsPool.init ⟨5, 4⟩ :=
  join_error_leaves_state _
    (PyError.attributeError "NoneType object has no attribute wait_completion") rfl

/-- C10: a `ThreadPool` constructed with `thread_count = 0` — as `set_papers`
builds for an empty source list — has a task channel with `maxsize = 0`,
which the queue semantics treat as unbounded: `put` never blocks, however
many items are already pending. -/
theorem zero_capacity_channel_unbounded (np : NewsPool π α) (k count t : Nat) :
    ((np.set_papers [] k).pool.map (fun p => p.tasks.maxsize)) = some 0 ∧
    (ThreadPool.init τ 0 t).tasks.maxsize = 0 ∧
    ¬ putBlocks 0 count := by
  refine ⟨?_, rfl, ?_⟩
  · simp [NewsPool.set_papers, ThreadPool.init, PyQueue.empty]
  · intro hb
    exact absurd hb.1 (by omega)

end Mthreading
